import Mathlib

/-!
Verification of the Scrublet doublet-detection core
(`scanpy/preprocessing/_scrublet/core.py` and
`scanpy/preprocessing/_scrublet/__init__.py`).

The Python code is shallowly embedded: count matrices are lists of rows of
naturals, machine floats are exact rationals (with an explicit extended type
for the places where IEEE division by zero matters), the long-lived mutable
`Scrublet` object is an explicit state record whose dynamically-added
attributes are `Option` fields, and the process-wide numpy RNG is threaded
as an explicit natural-number state.
-/

namespace Scrublet

/-- Python's builtin `round` on an exact value: round half to even
(banker's rounding), as used in `core.py` line 463. -/
def pyRound (x : ℚ) : ℤ :=
  if x - (⌊x⌋ : ℚ) < 1/2 then ⌊x⌋
  else if 1/2 < x - (⌊x⌋ : ℚ) then ⌊x⌋ + 1
  else if Even ⌊x⌋ then ⌊x⌋ else ⌊x⌋ + 1

/-- Python's builtin `int()` on an exact value: truncation toward zero,
as used for `n_sim = int(n_obs * sim_doublet_ratio)` in `core.py` line 347. -/
def pyInt (x : ℚ) : ℤ :=
  if 0 ≤ x then ⌊x⌋ else -⌊-x⌋

/-- Modelled from the spec: the process-wide numpy random generator
(`np.random`), which the spec requires to be a deterministic function of the
seed. One step of the generator state, abstracted as a linear congruential
transition. -/
def lcg (g : ℕ) : ℕ :=
  (1103515245 * g + 12345) % 2147483648

/-- Modelled from the spec: `np.random.randint(0, hi, size=(n, 2))` — draw
`n` pairs of indices independently and uniformly at random in `[0, hi)`,
advancing the generator state; returns the pairs and the new state. -/
def npRandintPairs : ℕ → ℕ → ℕ → List (ℕ × ℕ) × ℕ
  | g, _, 0 => ([], g)
  | g, hi, Nat.succ n =>
    let g1 := lcg g
    let g2 := lcg g1
    let rest := npRandintPairs g2 hi n
    ((g1 % hi, g2 % hi) :: rest.1, rest.2)

/-- An IEEE-754 double as numpy produces it here: an exact finite value, or
one of the non-finite results of dividing by zero. -/
inductive PyFloat where
  | finite (x : ℚ)
  | posInf
  | negInf
  | nan
  deriving DecidableEq

/-- Division of two finite numpy floats (`np.float64`): division by zero
yields `inf`/`-inf`/`nan` (with a runtime warning), never an exception. -/
def fdiv (a b : ℚ) : PyFloat :=
  if b = 0 then
    if a = 0 then .nan else if 0 < a then .posInf else .negInf
  else .finite (a / b)

/-- Division on `PyFloat` values, IEEE-754 style: `nan` propagates,
`inf / finite` keeps an infinity, `finite / inf` is zero. -/
def pfDiv : PyFloat → PyFloat → PyFloat
  | .finite a, .finite b => fdiv a b
  | .nan, _ => .nan
  | _, .nan => .nan
  | .posInf, .finite b => if b < 0 then .negInf else .posInf
  | .negInf, .finite b => if b < 0 then .posInf else .negInf
  | .finite _, _ => .finite 0
  | .posInf, _ => .nan
  | .negInf, _ => .nan

/-- The state of a `Scrublet` object (`core.py` `__init__`, lines 129–153).
Attributes that Python adds dynamically in later pipeline stages
(`_total_counts_sim`, `doublet_parents_`, `threshold_`, …) are `Option`
fields that start out `none`; doublet scores are exact rationals (the
Bayesian score formula is a rational function of its inputs). -/
structure ScrubState where
  E_obs : List (List ℕ)
  total_counts_obs : List ℕ
  E_sim : Option (List (List ℕ)) := none
  total_counts_sim : Option (List ℕ) := none
  sim_doublet_ratio : ℚ := 2
  n_neighbors : ℕ := 0
  expected_doublet_rate : ℚ := 1/10
  stdev_doublet_rate : ℚ := 1/50
  random_state : ℕ := 0
  doublet_parents : Option (List (ℕ × ℕ)) := none
  doublet_scores_obs : Option (List ℚ) := none
  doublet_scores_sim : Option (List ℚ) := none
  doublet_errors_obs : Option (List ℚ) := none
  doublet_errors_sim : Option (List ℚ) := none
  predicted_doublets : Option (List Bool) := none
  z_scores : Option (List PyFloat) := none
  threshold : Option ℚ := none
  detected_doublet_rate : Option PyFloat := none
  detectable_doublet_fraction : Option PyFloat := none
  overall_doublet_rate : Option PyFloat := none
  deriving DecidableEq

/-- Modelled from the spec: `utils.subsample_counts` (the module
`_scrublet/utils.py` is not part of the sources at hand) — stochastically
thin the summed counts at rate `rate`, deterministically in the seed, and
return the thinned matrix together with totals recomputed from it. The
thinning itself is abstracted as a deterministic per-entry reduction. -/
def subsample_counts (E : List (List ℕ)) (rate : ℚ) (seed : ℕ) :
    List (List ℕ) × List ℕ :=
  let thin : ℕ → ℕ := fun c => (pyInt (rate * c + (seed % 1 : ℕ))).toNat
  let E' := E.map (fun row => row.map thin)
  (E', E'.map (fun row => row.sum))

/-- `Scrublet.simulate_doublets` (`core.py` lines 315–367): pick
`n_sim = int(n_obs * sim_doublet_ratio)` random row pairs (reseeding the
process-wide RNG from `random_state` first), sum the paired rows and totals
(thinning them when `synthetic_doublet_umi_subsampling < 1`), and store the
synthetic matrix, its totals and the parent pairs on the object. Takes and
returns the process-wide RNG state `g` alongside the object state. -/
def simulate_doublets (s : ScrubState) (g : ℕ) (ratioArg : Option ℚ)
    (subsampling : ℚ) : ScrubState × ℕ :=
  let ratio := ratioArg.getD s.sim_doublet_ratio
  let s0 := match ratioArg with
    | none => s
    | some rr => { s with sim_doublet_ratio := rr }
  let n_obs := s.E_obs.length
  let n_sim := (pyInt ((n_obs : ℚ) * ratio)).toNat
  -- np.random.seed(self.random_state): the global RNG state is overwritten
  let drawn := npRandintPairs s.random_state n_obs n_sim
  let pair_ix := drawn.1
  let E1 := pair_ix.map (fun p => (s.E_obs.get? p.1).getD [])
  let E2 := pair_ix.map (fun p => (s.E_obs.get? p.2).getD [])
  let tots1 := pair_ix.map (fun p => (s.total_counts_obs.get? p.1).getD 0)
  let tots2 := pair_ix.map (fun p => (s.total_counts_obs.get? p.2).getD 0)
  if subsampling < 1 then
    let thinned := subsample_counts
      (List.zipWith (List.zipWith (· + ·)) E1 E2) subsampling s.random_state
    ({ s0 with
        E_sim := some thinned.1
        total_counts_sim := some thinned.2
        doublet_parents := some pair_ix }, drawn.2)
  else
    ({ s0 with
        E_sim := some (List.zipWith (List.zipWith (· + ·)) E1 E2)
        total_counts_sim := some (List.zipWith (· + ·) tots1 tots2)
        doublet_parents := some pair_ix }, drawn.2)

/-- Effective neighborhood size
`k_adj = int(round(k * (1 + n_sim / float(n_obs))))`
(`core.py` line 463). -/
def kAdj (k n_obs n_sim : ℕ) : ℤ :=
  pyRound ((k : ℚ) * (1 + (n_sim : ℚ) / (n_obs : ℚ)))

/-- The pooled labels
`doub_labels = concatenate((zeros(n_obs), ones(n_sim)))`
(`core.py` lines 452–457). -/
def doubLabels (n_obs n_sim : ℕ) : List ℕ :=
  List.replicate n_obs 0 ++ List.replicate n_sim 1

/-- `n_sim_neigh = (doub_labels[neighbors] == 1).sum(1)` for one pooled
point: the number of its neighbors carrying the simulated label
(`core.py` lines 476–477). -/
def simNeighborCount (n_obs n_sim : ℕ) (neigh : List ℕ) : ℕ :=
  neigh.countP (fun j => (doubLabels n_obs n_sim).getD j 0 == 1)

/-- `q = (nd + 1) / (N + 2)` (`core.py` line 485). -/
def q (nd N : ℚ) : ℚ := (nd + 1) / (N + 2)

/-- `Ld = q * rho / r / (1 - rho - q * (1 - rho - rho / r))`
(`core.py` line 486). -/
def Ld (nd N rho r : ℚ) : ℚ :=
  q nd N * rho / r / (1 - rho - q nd N * (1 - rho - rho / r))

/-- `se_Ld` (`core.py` lines 488–497), with
`se_q = sqrt(q * (1 - q) / (N + 3))`. -/
noncomputable def se_Ld (nd N rho r sigma : ℝ) : ℝ :=
  let qv := (nd + 1) / (N + 2)
  let se_qv := Real.sqrt (qv * (1 - qv) / (N + 3))
  qv * rho / r / (1 - rho - qv * (1 - rho - rho / r)) ^ 2 *
    Real.sqrt ((se_qv / qv * (1 - rho)) ^ 2 + (sigma / rho * (1 - qv)) ^ 2)

/-- The doublet scores of `Scrublet._nearest_neighbor_classifier`
(`core.py` lines 459–486) as a function of the pooled neighbor graph
(the graph itself is produced by the external `get_knn_graph` backend and
enters as an argument): per pooled point, `Ld` at its simulated-neighbor
count, with `N = k_adj` and `r = n_sim / n_obs`. -/
def classifier_scores (n_obs n_sim k : ℕ) (rho : ℚ)
    (neighbors : List (List ℕ)) : List ℚ :=
  neighbors.map (fun nb =>
    Ld (simNeighborCount n_obs n_sim nb) ((kAdj k n_obs n_sim : ℤ) : ℚ) rho
      ((n_sim : ℚ) / (n_obs : ℚ)))

/-- The doublet standard errors of `Scrublet._nearest_neighbor_classifier`
(`core.py` lines 488–497), per pooled point. -/
noncomputable def classifier_errors (n_obs n_sim k : ℕ) (rho sigma : ℚ)
    (neighbors : List (List ℕ)) : List ℝ :=
  neighbors.map (fun nb =>
    se_Ld (simNeighborCount n_obs n_sim nb) ((kAdj k n_obs n_sim : ℤ) : ℝ)
      (rho : ℝ) ((n_sim : ℝ) / (n_obs : ℝ)) (sigma : ℝ))

/-- The spec's neighbor-doublet count: the number of neighbors whose pooled
index falls in the simulated range `[n_obs, n_obs + n_sim)` (spec §4.5). -/
def ndSpec (n_obs n_sim : ℕ) (nb : List ℕ) : ℕ :=
  nb.countP (fun j => decide (n_obs ≤ j ∧ j < n_obs + n_sim))

/-- The spec's score formula `L_d = q·ρ/r / (1 − ρ − q·(1 − ρ − ρ/r))` with
`q = (nd + 1)/(N + 2)` (spec §4.5). -/
def LdSpec (nd N rho r : ℚ) : ℚ :=
  ((nd + 1) / (N + 2)) * rho / r /
    (1 - rho - ((nd + 1) / (N + 2)) * (1 - rho - rho / r))

/-- The spec's standard-error formula
`se_Ld = q·ρ/r / (1 − ρ − q·(1 − ρ − ρ/r))² · sqrt((se_q/q·(1−ρ))² + (σρ/ρ·(1−q))²)`
with `se_q = sqrt(q·(1−q)/(N+3))` (spec §4.5). -/
noncomputable def seLdSpec (nd N rho r sigma : ℝ) : ℝ :=
  let qv := (nd + 1) / (N + 2)
  let se_qv := Real.sqrt (qv * (1 - qv) / (N + 3))
  qv * rho / r / (1 - rho - qv * (1 - rho - rho / r)) ^ 2 *
    Real.sqrt ((se_qv / qv * (1 - rho)) ^ 2 + (sigma / rho * (1 - qv)) ^ 2)

/-- The successful branch of `Scrublet.call_doublets` (`core.py` lines
568–583): given a threshold `t`, set predictions, z-scores, the threshold
and the three summary rates (numpy float division, which yields non-finite
values on a zero denominator instead of raising). -/
def call_with (s : ScrubState) (t : ℚ) : ScrubState :=
  let LdObs := s.doublet_scores_obs.getD []
  let LdSim := s.doublet_scores_sim.getD []
  let seObs := s.doublet_errors_obs.getD []
  let detected := fdiv ((LdObs.countP (fun x => decide (t < x)) : ℕ) : ℚ)
    ((LdObs.length : ℕ) : ℚ)
  let detectable := fdiv ((LdSim.countP (fun x => decide (t < x)) : ℕ) : ℚ)
    ((LdSim.length : ℕ) : ℚ)
  { s with
      predicted_doublets := some (LdObs.map (fun x => decide (t < x)))
      z_scores := some (List.zipWith (fun l e => fdiv (l - t) e) LdObs seObs)
      threshold := some t
      detected_doublet_rate := some detected
      detectable_doublet_fraction := some detectable
      overall_doublet_rate := some (pfDiv detected detectable) }

/-- `Scrublet.call_doublets` (`core.py` lines 521–600). `thresholdArg` is
the caller-supplied threshold; `autoThreshold` is the outcome of the
external `skimage.filters.threshold_minimum` bimodal search (`none` when
the search raises, i.e. fails to converge), consulted only when no
threshold was supplied. On search failure only `predicted_doublets_` is
assigned (to `None`) and the method returns early. -/
def call_doublets (s : ScrubState) (thresholdArg : Option ℚ)
    (autoThreshold : Option ℚ) : ScrubState :=
  match thresholdArg, autoThreshold with
  | none, none => { s with predicted_doublets := none }
  | none, some t => call_with s t
  | some t, _ => call_with s t

/-- The `predicted_doublet` column `_scrublet_call_doublets` exposes on the
result object (`__init__.py` lines 468–472): the scrub object's predictions
when a threshold was stored (`hasattr(scrub, "threshold_")`), otherwise the
scalar `False` broadcast over all `n` observed cells. -/
def exposed_predicted (s : ScrubState) (n : ℕ) : List Bool :=
  if s.threshold.isSome then s.predicted_doublets.getD []
  else List.replicate n false

/-- The Python attribute names involved in `scrublet_simulate_doublets`
(`__init__.py` lines 531–543) and in the `Scrublet` object it drives
(`core.py`). Lean names drop Python's leading underscore / trailing
underscore: `counts_sim` stands for `_counts_sim`, `doublet_parents` for
`doublet_parents_`, and so on. -/
inductive ScrubAttr where
  | E_obs | E_sim | E_obs_norm | E_sim_norm
  | total_counts_obs | gene_filter | embeddings
  | sim_doublet_ratio | n_neighbors | expected_doublet_rate
  | stdev_doublet_rate | random_state
  | total_counts_sim | doublet_parents
  | counts_sim
  deriving DecidableEq

/-- The attributes `Scrublet.__init__` assigns (`core.py` lines 129–153). -/
def attrs_set_by_init : List ScrubAttr :=
  [ .E_obs, .E_sim, .E_obs_norm, .E_sim_norm, .total_counts_obs,
    .gene_filter, .embeddings, .sim_doublet_ratio, .n_neighbors,
    .expected_doublet_rate, .stdev_doublet_rate, .random_state ]

/-- The attributes `Scrublet.simulate_doublets` assigns
(`core.py` lines 341–367). -/
def attrs_set_by_simulate : List ScrubAttr :=
  [ .sim_doublet_ratio, .E_sim, .total_counts_sim, .doublet_parents ]

/-- All attributes present on a fresh `Scrublet` after
`simulate_doublets`. -/
def attrs_after_simulate : List ScrubAttr :=
  attrs_set_by_init ++ attrs_set_by_simulate

/-- The attributes `scrublet_simulate_doublets` reads off the scrub object
to build its result (`__init__.py` lines 539–541): `scrub._counts_sim`,
`scrub._total_counts_sim`, `scrub.doublet_parents_`. -/
def attrs_read_for_result : List ScrubAttr :=
  [ .counts_sim, .total_counts_sim, .doublet_parents ]

/-! Helper lemmas. -/

theorem npRandintPairs_length (g hi n : ℕ) :
    (npRandintPairs g hi n).1.length = n := by
  induction n generalizing g with
  | zero => rfl
  | succ n ih => simp [npRandintPairs, ih]

theorem npRandintPairs_mem {hi : ℕ} (hhi : 0 < hi) :
    ∀ (g n : ℕ), ∀ p ∈ (npRandintPairs g hi n).1, p.1 < hi ∧ p.2 < hi := by
  intro g n
  induction n generalizing g with
  | zero => intro p hp; simp [npRandintPairs] at hp
  | succ n ih =>
    intro p hp
    simp only [npRandintPairs, List.mem_cons] at hp
    rcases hp with h | h
    · subst h; exact ⟨Nat.mod_lt _ hhi, Nat.mod_lt _ hhi⟩
    · exact ih _ p h

theorem floor_le_pyRound (x : ℚ) : ⌊x⌋ ≤ pyRound x := by
  unfold pyRound
  split
  · exact le_rfl
  · split
    · exact le_of_lt (lt_add_one _)
    · split
      · exact le_rfl
      · exact le_of_lt (lt_add_one _)

theorem zipWith_map_same {α β γ δ : Type} (f : β → γ → δ) (u : α → β)
    (v : α → γ) (l : List α) :
    List.zipWith f (l.map u) (l.map v) = l.map (fun x => f (u x) (v x)) := by
  induction l with
  | nil => rfl
  | cons a t ih => simp [ih]

theorem getD_replicate_pos {α : Type} (a d : α) (n j : ℕ) :
    (List.replicate n a).getD j d = if j < n then a else d := by
  induction n generalizing j with
  | zero => rw [if_neg (Nat.not_lt_zero j)]; cases j <;> rfl
  | succ n ih =>
    cases j with
    | zero => simp [List.replicate]
    | succ j =>
      simp only [List.replicate, List.getD_cons_succ, ih, Nat.succ_lt_succ_iff]

theorem doubLabels_getD (n_obs n_sim j : ℕ) :
    (doubLabels n_obs n_sim).getD j 0
      = if n_obs ≤ j ∧ j < n_obs + n_sim then 1 else 0 := by
  unfold doubLabels
  rcases lt_or_ge j n_obs with h | h
  · rw [List.getD_append _ _ _ _ (by simpa using h), getD_replicate_pos,
      if_pos h, if_neg (by omega)]
  · rw [List.getD_append_right _ _ _ _ (by simpa using h), getD_replicate_pos]
    simp only [List.length_replicate]
    by_cases h2 : j < n_obs + n_sim
    · rw [if_pos (by omega), if_pos ⟨h, h2⟩]
    · rw [if_neg (by omega), if_neg (by omega)]

theorem simNeighborCount_eq_ndSpec (n_obs n_sim : ℕ) (nb : List ℕ) :
    simNeighborCount n_obs n_sim nb = ndSpec n_obs n_sim nb := by
  unfold simNeighborCount ndSpec
  apply List.countP_congr
  intro j _
  rw [doubLabels_getD]
  by_cases h : n_obs ≤ j ∧ j < n_obs + n_sim <;> simp [h]

theorem pfDiv_finite_zero_ne_finite (d : PyFloat) (x : ℚ) :
    pfDiv d (.finite 0) ≠ .finite x := by
  cases d <;> simp only [pfDiv, fdiv] <;>
    first
    | (split_ifs <;> simp)
    | simp

/-! The claims. -/

/-- C10: when the automatic threshold search fails, `call_doublets` sets only
`predicted_doublets_` — and sets it to `None`, not to an all-`False` array —
while `threshold_`, `z_scores_`, `detected_doublet_rate_`,
`detectable_doublet_fraction_`, `overall_doublet_rate_` and every other field
are exactly what they were before the call. -/
theorem call_doublets_failure_frame (s : ScrubState) :
    (call_doublets s none none).predicted_doublets = none
  ∧ (call_doublets s none none).threshold = s.threshold
  ∧ (call_doublets s none none).z_scores = s.z_scores
  ∧ (call_doublets s none none).detected_doublet_rate = s.detected_doublet_rate
  ∧ (call_doublets s none none).detectable_doublet_fraction
      = s.detectable_doublet_fraction
  ∧ (call_doublets s none none).overall_doublet_rate = s.overall_doublet_rate
  ∧ (call_doublets s none none).doublet_scores_obs = s.doublet_scores_obs
  ∧ (call_doublets s none none).doublet_scores_sim = s.doublet_scores_sim
  ∧ (call_doublets s none none).doublet_errors_obs = s.doublet_errors_obs
  ∧ (call_doublets s none none).doublet_errors_sim = s.doublet_errors_sim
  ∧ (call_doublets s none none).E_obs = s.E_obs
  ∧ (call_doublets s none none).E_sim = s.E_sim
  ∧ (call_doublets s none none).total_counts_obs = s.total_counts_obs
  ∧ (call_doublets s none none).total_counts_sim = s.total_counts_sim
  ∧ (call_doublets s none none).sim_doublet_ratio = s.sim_doublet_ratio
  ∧ (call_doublets s none none).n_neighbors = s.n_neighbors
  ∧ (call_doublets s none none).expected_doublet_rate = s.expected_doublet_rate
  ∧ (call_doublets s none none).stdev_doublet_rate = s.stdev_doublet_rate
  ∧ (call_doublets s none none).random_state = s.random_state
  ∧ (call_doublets s none none).doublet_parents = s.doublet_parents :=
  ⟨rfl, rfl, rfl, rfl, rfl, rfl, rfl, rfl, rfl, rfl, rfl, rfl, rfl, rfl, rfl,
   rfl, rfl, rfl, rfl, rfl⟩

/-- C6: `scrublet_simulate_doublets` builds its result from
`scrub._counts_sim` (`__init__.py` line 539), but `simulate_doublets` stores
the synthetic matrix under `_E_sim` (`core.py` line 364) and no code path
ever assigns `_counts_sim`, so the read raises `AttributeError` instead of
returning the synthetic count matrix. -/
theorem scrublet_simulate_doublets_attr_mismatch :
    ScrubAttr.counts_sim ∈ attrs_read_for_result
  ∧ ScrubAttr.counts_sim ∉ attrs_after_simulate
  ∧ ScrubAttr.E_sim ∈ attrs_after_simulate := by decide

/-- C5: the pooled k-nearest-neighbor query uses the effective neighborhood
size `k_adj = round(k * (1 + n_sim/n_obs))`, and `k ≤ k_adj` whenever
`0 < n_sim`. -/
theorem k_adj_eq_round_and_ge (k n_obs n_sim : ℕ) (h : 0 < n_obs) :
    kAdj k n_obs n_sim = pyRound ((k : ℚ) * (1 + (n_sim : ℚ) / (n_obs : ℚ)))
  ∧ (0 < n_sim → (k : ℤ) ≤ kAdj k n_obs n_sim) := by
  refine ⟨rfl, fun _ => ?_⟩
  have hd : 0 ≤ (n_sim : ℚ) / (n_obs : ℚ) := by positivity
  have hx : (k : ℚ) ≤ (k : ℚ) * (1 + (n_sim : ℚ) / (n_obs : ℚ)) := by
    nlinarith [Nat.cast_nonneg (α := ℚ) k]
  calc (k : ℤ) = ⌊(k : ℚ)⌋ := (Int.floor_natCast k).symm
    _ ≤ ⌊(k : ℚ) * (1 + (n_sim : ℚ) / (n_obs : ℚ))⌋ := Int.floor_le_floor hx
    _ ≤ kAdj k n_obs n_sim := floor_le_pyRound _

/-- C5 witness: `k = 3`, `n_obs = 2`, `n_sim = 4`. -/
theorem k_adj_eq_round_and_ge_witness :
    0 < 2 ∧ 0 < 4 ∧ (3 : ℤ) ≤ kAdj 3 2 4 :=
  ⟨by decide, by decide, (k_adj_eq_round_and_ge 3 2 4 (by decide)).2 (by decide)⟩

/-- C1: for a nonempty observed matrix and a positive simulation ratio,
`simulate_doublets` draws exactly `n_sim = floor(n_obs * ratio)` parent
pairs, every component of which is an index in `[0, n_obs)`; the stored
`doublet_parents_` array therefore has shape `(n_sim, 2)`. -/
theorem simulate_doublets_parents_c1 (s : ScrubState) (g : ℕ) (ratio sub : ℚ)
    (hobs : 0 < s.E_obs.length) (hratio : 0 < ratio) :
    ∃ ps, (simulate_doublets s g (some ratio) sub).1.doublet_parents = some ps
      ∧ (ps.length : ℤ) = ⌊(s.E_obs.length : ℚ) * ratio⌋
      ∧ ∀ p ∈ ps, p.1 < s.E_obs.length ∧ p.2 < s.E_obs.length := by
  have hx : 0 ≤ (s.E_obs.length : ℚ) * ratio := by positivity
  have hpy : pyInt ((s.E_obs.length : ℚ) * ratio)
      = ⌊(s.E_obs.length : ℚ) * ratio⌋ := by
    unfold pyInt; rw [if_pos hx]
  refine ⟨(npRandintPairs s.random_state s.E_obs.length
      ((pyInt ((s.E_obs.length : ℚ) * ratio)).toNat)).1, ?_, ?_, ?_⟩
  · by_cases hlt : sub < 1 <;> simp [simulate_doublets, hlt]
  · rw [npRandintPairs_length, hpy]
    exact Int.toNat_of_nonneg (Int.floor_nonneg.mpr hx)
  · exact npRandintPairs_mem hobs _ _

/-- A concrete two-cell `Scrublet` state for the C1 witness. -/
def wState1 : ScrubState := { E_obs := [[1], [0]], total_counts_obs := [1, 0] }

/-- C1 witness: two observed cells, ratio `3/2`, so three parent pairs. -/
theorem simulate_doublets_parents_c1_witness :
    0 < wState1.E_obs.length ∧ 0 < (3/2 : ℚ)
  ∧ ∃ ps, (simulate_doublets wState1 7 (some (3/2)) 1).1.doublet_parents
        = some ps
      ∧ (ps.length : ℤ) = ⌊((wState1.E_obs.length : ℚ) * (3/2))⌋
      ∧ ∀ p ∈ ps, p.1 < wState1.E_obs.length ∧ p.2 < wState1.E_obs.length :=
  ⟨by decide, by norm_num,
   simulate_doublets_parents_c1 wState1 7 (3/2) 1 (by decide) (by norm_num)⟩

/-- C7: with `synthetic_doublet_umi_subsampling = 1` no thinning happens:
each synthetic count row is the exact element-wise sum of its two parent
rows, and each synthetic total is the sum of the two parents' totals. -/
theorem simulate_doublets_exact_sum_c7 (s : ScrubState) (g : ℕ)
    (ratioArg : Option ℚ) (sub : ℚ) (hsub : sub = 1) :
    ∃ ps, (simulate_doublets s g ratioArg sub).1.doublet_parents = some ps
      ∧ (simulate_doublets s g ratioArg sub).1.E_sim
          = some (ps.map (fun p => List.zipWith (· + ·)
              ((s.E_obs.get? p.1).getD []) ((s.E_obs.get? p.2).getD [])))
      ∧ (simulate_doublets s g ratioArg sub).1.total_counts_sim
          = some (ps.map (fun p => (s.total_counts_obs.get? p.1).getD 0
              + (s.total_counts_obs.get? p.2).getD 0)) := by
  subst hsub
  have hnlt : ¬ (1 : ℚ) < 1 := lt_irrefl 1
  refine ⟨(npRandintPairs s.random_state s.E_obs.length
      ((pyInt ((s.E_obs.length : ℚ)
        * (ratioArg.getD s.sim_doublet_ratio))).toNat)).1, ?_, ?_, ?_⟩ <;>
    cases ratioArg <;> simp [simulate_doublets, hnlt, zipWith_map_same]

/-- A concrete two-cell `Scrublet` state for the C7 witness. -/
def wState7 : ScrubState :=
  { E_obs := [[1, 2], [3, 4]], total_counts_obs := [3, 7] }

/-- C7 witness: a concrete two-cell matrix at subsampling rate 1. -/
theorem simulate_doublets_exact_sum_c7_witness :
    (1 : ℚ) = 1
  ∧ ∃ ps, (simulate_doublets wState7 0 none 1).1.doublet_parents = some ps
      ∧ (simulate_doublets wState7 0 none 1).1.E_sim
          = some (ps.map (fun p => List.zipWith (· + ·)
              ((wState7.E_obs.get? p.1).getD [])
              ((wState7.E_obs.get? p.2).getD [])))
      ∧ (simulate_doublets wState7 0 none 1).1.total_counts_sim
          = some (ps.map (fun p =>
              ((wState7.total_counts_obs.get? p.1).getD 0)
              + ((wState7.total_counts_obs.get? p.2).getD 0))) :=
  ⟨rfl, simulate_doublets_exact_sum_c7 wState7 0 none 1 rfl⟩

/-- C3: exposure of predictions by `_scrublet_call_doublets`. On a fresh
scrub object (no threshold stored yet), if the automatic bimodal-threshold
search fails no threshold is stored and the exposed `predicted_doublet`
column is `False` for every observed cell; if the search succeeds, or a
threshold is supplied by the caller, the exposed prediction for cell `i` is
exactly `doublet_score[i] > threshold`. -/
theorem call_doublets_predictions_c3 (s : ScrubState) (so : List ℚ)
    (hso : s.doublet_scores_obs = some so) (hth : s.threshold = none) :
    ((call_doublets s none none).threshold = none
      ∧ exposed_predicted (call_doublets s none none) so.length
          = List.replicate so.length false)
  ∧ (∀ t : ℚ, exposed_predicted (call_doublets s none (some t)) so.length
        = so.map (fun x => decide (t < x)))
  ∧ (∀ (t : ℚ) (auto : Option ℚ),
        exposed_predicted (call_doublets s (some t) auto) so.length
          = so.map (fun x => decide (t < x))) := by
  refine ⟨⟨?_, ?_⟩, ?_, ?_⟩
  · simpa [call_doublets] using hth
  · simp [call_doublets, exposed_predicted, hth]
  · intro t
    simp [call_doublets, call_with, exposed_predicted, hso]
  · intro t auto
    cases auto <;> simp [call_doublets, call_with, exposed_predicted, hso]

/-- A concrete scored `Scrublet` state for the C3 witness. -/
def wState3 : ScrubState :=
  { E_obs := [[1]], total_counts_obs := [1],
    doublet_scores_obs := some [2, 1/2], doublet_scores_sim := some [3],
    doublet_errors_obs := some [1, 1] }

/-- C3 witness: on a fresh state with observed scores `[2, 1/2]` and
threshold `1`, the exposed predictions are the thresholded scores. -/
theorem call_doublets_predictions_c3_witness :
    wState3.doublet_scores_obs = some [2, 1/2]
  ∧ wState3.threshold = none
  ∧ exposed_predicted (call_doublets wState3 none (some 1))
      ([2, 1/2] : List ℚ).length
      = ([2, 1/2] : List ℚ).map (fun x => decide ((1 : ℚ) < x)) :=
  ⟨rfl, rfl, (call_doublets_predictions_c3 wState3 [2, 1/2] rfl rfl).2.1 1⟩

/-- Helper: `call_with` always stores the three rates with
`overall = pfDiv detected detectable`. -/
theorem call_with_overall_structure (s : ScrubState) (t : ℚ) :
    ∃ d f, (call_with s t).detected_doublet_rate = some d
      ∧ (call_with s t).detectable_doublet_fraction = some f
      ∧ (call_with s t).overall_doublet_rate = some (pfDiv d f) :=
  ⟨_, _, rfl, rfl, rfl⟩

/-- C9: on a successful `call_doublets`, `overall_doublet_rate_` is the
numpy-float quotient of `detected_doublet_rate_` by
`detectable_doublet_fraction_`; when the detectable fraction is zero the
quotient is a non-finite value (`inf` or `nan`), never a finite number; and
an automatically found threshold behaves exactly like a supplied one. -/
theorem call_doublets_overall_rate_c9 (s : ScrubState) (t : ℚ)
    (auto : Option ℚ) :
    (∃ d f, (call_doublets s (some t) auto).detected_doublet_rate = some d
      ∧ (call_doublets s (some t) auto).detectable_doublet_fraction = some f
      ∧ (call_doublets s (some t) auto).overall_doublet_rate
          = some (pfDiv d f))
  ∧ ((call_doublets s (some t) auto).detectable_doublet_fraction
        = some (PyFloat.finite 0)
      → ∀ x : ℚ, (call_doublets s (some t) auto).overall_doublet_rate
          ≠ some (PyFloat.finite x))
  ∧ call_doublets s none (some t) = call_doublets s (some t) auto := by
  have hcd : call_doublets s (some t) auto = call_with s t := by
    cases auto <;> rfl
  obtain ⟨d, f, hd, hf, ho⟩ := call_with_overall_structure s t
  refine ⟨⟨d, f, ?_, ?_, ?_⟩, ?_, ?_⟩
  · rw [hcd, hd]
  · rw [hcd, hf]
  · rw [hcd, ho]
  · intro hF x hx
    rw [hcd, hf] at hF
    rw [hcd, ho] at hx
    have hf0 : f = .finite 0 := Option.some.inj hF
    rw [hf0] at hx
    exact pfDiv_finite_zero_ne_finite d x (Option.some.inj hx)
  · cases auto <;> rfl

/-- A concrete scored `Scrublet` state for the C9 witness: both simulated
scores fall below the threshold `5`, so the detectable fraction is zero. -/
def wState9 : ScrubState :=
  { E_obs := [[1]], total_counts_obs := [1],
    doublet_scores_obs := some [10], doublet_scores_sim := some [1, 2],
    doublet_errors_obs := some [1] }

/-- Evaluation of the detectable fraction on the C9 witness state. -/
theorem wState9_detectable_zero :
    (call_doublets wState9 (some 5) none).detectable_doublet_fraction
      = some (PyFloat.finite 0) := by
  show (call_with wState9 5).detectable_doublet_fraction
      = some (PyFloat.finite 0)
  simp only [call_with, wState9]
  norm_num [fdiv]

/-- C9 witness: with detectable fraction `0` the overall rate is not the
finite value `0` (it is `inf` here). -/
theorem call_doublets_overall_rate_c9_witness :
    (call_doublets wState9 (some 5) none).detectable_doublet_fraction
      = some (PyFloat.finite 0)
  ∧ (call_doublets wState9 (some 5) none).overall_doublet_rate
      ≠ some (PyFloat.finite 0) :=
  ⟨wState9_detectable_zero,
   (call_doublets_overall_rate_c9 wState9 5 none).2.1 wState9_detectable_zero 0⟩

/-- C2: each pooled point's doublet score produced by
`_nearest_neighbor_classifier` equals the spec formula
`L_d = q·ρ/r / (1 − ρ − q·(1 − ρ − ρ/r))` with `q = (nd+1)/(N+2)`,
`N = k_adj`, `r = n_sim/n_obs` and `nd` the count of neighbors whose pooled
index lies in the simulated range, and its standard error equals the spec's
`se_Ld` formula with `se_q = sqrt(q·(1−q)/(N+3))`; both are pure functions
of the neighbor graph and the parameters (they are Lean functions of
exactly those arguments, with no other input). -/
theorem classifier_matches_spec_c2 (n_obs n_sim k : ℕ) (rho sigma : ℚ)
    (neighbors : List (List ℕ)) (i : ℕ) (nb : List ℕ)
    (h : neighbors.get? i = some nb) :
    (classifier_scores n_obs n_sim k rho neighbors).get? i
      = some (LdSpec (ndSpec n_obs n_sim nb) ((kAdj k n_obs n_sim : ℤ) : ℚ)
          rho ((n_sim : ℚ) / (n_obs : ℚ)))
  ∧ (classifier_errors n_obs n_sim k rho sigma neighbors).get? i
      = some (seLdSpec (ndSpec n_obs n_sim nb) ((kAdj k n_obs n_sim : ℤ) : ℝ)
          (rho : ℝ) ((n_sim : ℝ) / (n_obs : ℝ)) (sigma : ℝ)) := by
  constructor
  · unfold classifier_scores
    rw [List.get?_map, h, Option.map_some', simNeighborCount_eq_ndSpec]
    rfl
  · unfold classifier_errors
    rw [List.get?_map, h, Option.map_some', simNeighborCount_eq_ndSpec]
    rfl

/-- C2 witness: two pooled points (one observed, one simulated), `k = 1`,
`ρ = 1/10`, `σρ = 1/50`, neighbor lists `[[1], [0]]`. -/
theorem classifier_matches_spec_c2_witness :
    ([[1], [0]] : List (List ℕ)).get? 0 = some [1]
  ∧ (classifier_scores 1 1 1 (1/10) [[1], [0]]).get? 0
      = some (LdSpec (ndSpec 1 1 [1]) ((kAdj 1 1 1 : ℤ) : ℚ) (1/10)
          (((1 : ℕ) : ℚ) / ((1 : ℕ) : ℚ)))
  ∧ (classifier_errors 1 1 1 (1/10) (1/50) [[1], [0]]).get? 0
      = some (seLdSpec (ndSpec 1 1 [1]) ((kAdj 1 1 1 : ℤ) : ℝ)
          ((1/10 : ℚ) : ℝ) (((1 : ℕ) : ℝ) / ((1 : ℕ) : ℝ)) ((1/50 : ℚ) : ℝ)) :=
  ⟨rfl, (classifier_matches_spec_c2 1 1 1 (1/10) (1/50) [[1], [0]] 0 [1] rfl).1,
   (classifier_matches_spec_c2 1 1 1 (1/10) (1/50) [[1], [0]] 0 [1] rfl).2⟩

/-- C4: for fixed `ρ ∈ (0,1)`, `r > 0` and `N ≥ 1`, the code's score `Ld`
is non-negative on `nd ∈ [0, N]` and monotonically non-decreasing in
`nd`. -/
theorem Ld_nonneg_mono_c4 (rho r N nd1 nd2 : ℚ)
    (hr0 : 0 < rho) (hr1 : rho < 1) (hrr : 0 < r) (hN : 1 ≤ N)
    (h0 : 0 ≤ nd1) (h12 : nd1 ≤ nd2) (h2N : nd2 ≤ N) :
    0 ≤ Ld nd1 N rho r ∧ Ld nd1 N rho r ≤ Ld nd2 N rho r := by
  have hN2 : (0 : ℚ) < N + 2 := by linarith
  have ha : 0 < rho / r := div_pos hr0 hrr
  have hq1pos : 0 < q nd1 N := div_pos (by linarith) hN2
  have hq2pos : 0 < q nd2 N := div_pos (by linarith) hN2
  have hq12 : q nd1 N ≤ q nd2 N := by
    unfold q
    exact (div_le_div_right hN2).mpr (by linarith)
  have hq2lt1 : q nd2 N < 1 := by
    unfold q
    rw [div_lt_one hN2]
    linarith
  have hq1lt1 : q nd1 N < 1 := lt_of_le_of_lt hq12 hq2lt1
  have hLd : ∀ nd : ℚ, Ld nd N rho r
      = (q nd N * (rho / r))
        / ((1 - rho) * (1 - q nd N) + q nd N * (rho / r)) := by
    intro nd
    unfold Ld
    rw [mul_div_assoc]
    congr 1
    ring
  have hD1 : 0 < (1 - rho) * (1 - q nd1 N) + q nd1 N * (rho / r) := by
    have h1 : 0 ≤ (1 - rho) * (1 - q nd1 N) :=
      mul_nonneg (by linarith) (by linarith)
    have h2 : 0 < q nd1 N * (rho / r) := mul_pos hq1pos ha
    linarith
  have hD2 : 0 < (1 - rho) * (1 - q nd2 N) + q nd2 N * (rho / r) := by
    have h1 : 0 ≤ (1 - rho) * (1 - q nd2 N) :=
      mul_nonneg (by linarith) (by linarith)
    have h2 : 0 < q nd2 N * (rho / r) := mul_pos hq2pos ha
    linarith
  constructor
  · rw [hLd]
    exact div_nonneg (mul_nonneg hq1pos.le ha.le) hD1.le
  · rw [hLd, hLd, div_le_div_iff hD1 hD2]
    nlinarith [mul_nonneg (mul_nonneg ha.le
      (by linarith : (0 : ℚ) ≤ 1 - rho))
      (by linarith : (0 : ℚ) ≤ q nd2 N - q nd1 N)]

/-- C4 witness: `ρ = 1/10`, `r = 2`, `N = 5`, `nd` from `1` to `3`. -/
theorem Ld_nonneg_mono_c4_witness :
    (0 : ℚ) < 1/10 ∧ (1/10 : ℚ) < 1 ∧ (0 : ℚ) < 2 ∧ (1 : ℚ) ≤ 5
  ∧ (0 : ℚ) ≤ 1 ∧ (1 : ℚ) ≤ 3 ∧ (3 : ℚ) ≤ 5
  ∧ (0 ≤ Ld 1 5 (1/10) 2 ∧ Ld 1 5 (1/10) 2 ≤ Ld 3 5 (1/10) 2) :=
  ⟨by norm_num, by norm_num, by norm_num, by norm_num, by norm_num,
   by norm_num, by norm_num,
   Ld_nonneg_mono_c4 (1/10) 2 5 1 3 (by norm_num) (by norm_num) (by norm_num)
     (by norm_num) (by norm_num) (by norm_num) (by norm_num)⟩

/-- A concrete one-cell `Scrublet` state for the C8 counterexample and
witness. -/
def wState8 : ScrubState := { E_obs := [[1]], total_counts_obs := [1] }

/-- C8 counterexample: `simulate_doublets` is not free of side effects
beyond its simulation outputs — it reseeds and advances the process-wide
numpy RNG (`np.random.seed(self.random_state)` then `np.random.randint`,
`core.py` lines 349–350): the global RNG state is `999` before this
concrete call and differs after it. -/
theorem simulate_doublets_modifies_global_rng :
    (simulate_doublets wState8 999 none 1).2 ≠ 999 := by
  have hnlt : ¬ (1 : ℚ) < 1 := lt_irrefl 1
  have hpy : (pyInt ((1 : ℚ) * 2)).toNat = 2 := by
    norm_num [pyInt]
    decide
  simp only [simulate_doublets, wState8, hnlt, if_false, Option.getD,
    List.length_cons, List.length_nil, Nat.cast_ofNat, Nat.cast_one]
  norm_num [hpy]
  decide

/-- C8 amended: `simulate_doublets` is deterministic in the seed — two runs
with equal observed matrix, totals, `random_state` and stored ratio, and
identical arguments, produce identical synthetic matrices, totals and
parent pairs whatever the prior global RNG state — and beyond the
simulation outputs it modifies nothing on the object except
`sim_doublet_ratio` (only when a ratio argument is passed, to that value);
the process-wide RNG state is reseeded and advanced. -/
theorem simulate_doublets_deterministic_frame_c8 :
    (∀ (s1 s2 : ScrubState) (g1 g2 : ℕ) (ra : Option ℚ) (sub : ℚ),
      s1.E_obs = s2.E_obs → s1.total_counts_obs = s2.total_counts_obs →
      s1.random_state = s2.random_state →
      s1.sim_doublet_ratio = s2.sim_doublet_ratio →
        (simulate_doublets s1 g1 ra sub).1.E_sim
            = (simulate_doublets s2 g2 ra sub).1.E_sim
        ∧ (simulate_doublets s1 g1 ra sub).1.total_counts_sim
            = (simulate_doublets s2 g2 ra sub).1.total_counts_sim
        ∧ (simulate_doublets s1 g1 ra sub).1.doublet_parents
            = (simulate_doublets s2 g2 ra sub).1.doublet_parents)
  ∧ (∀ (s : ScrubState) (g : ℕ) (ra : Option ℚ) (sub : ℚ),
        (simulate_doublets s g ra sub).1.E_obs = s.E_obs
      ∧ (simulate_doublets s g ra sub).1.total_counts_obs
          = s.total_counts_obs
      ∧ (simulate_doublets s g ra sub).1.n_neighbors = s.n_neighbors
      ∧ (simulate_doublets s g ra sub).1.expected_doublet_rate
          = s.expected_doublet_rate
      ∧ (simulate_doublets s g ra sub).1.stdev_doublet_rate
          = s.stdev_doublet_rate
      ∧ (simulate_doublets s g ra sub).1.random_state = s.random_state
      ∧ (simulate_doublets s g ra sub).1.doublet_scores_obs
          = s.doublet_scores_obs
      ∧ (simulate_doublets s g ra sub).1.doublet_scores_sim
          = s.doublet_scores_sim
      ∧ (simulate_doublets s g ra sub).1.doublet_errors_obs
          = s.doublet_errors_obs
      ∧ (simulate_doublets s g ra sub).1.doublet_errors_sim
          = s.doublet_errors_sim
      ∧ (simulate_doublets s g ra sub).1.predicted_doublets
          = s.predicted_doublets
      ∧ (simulate_doublets s g ra sub).1.z_scores = s.z_scores
      ∧ (simulate_doublets s g ra sub).1.threshold = s.threshold
      ∧ (simulate_doublets s g ra sub).1.detected_doublet_rate
          = s.detected_doublet_rate
      ∧ (simulate_doublets s g ra sub).1.detectable_doublet_fraction
          = s.detectable_doublet_fraction
      ∧ (simulate_doublets s g ra sub).1.overall_doublet_rate
          = s.overall_doublet_rate
      ∧ (ra = none →
          (simulate_doublets s g ra sub).1.sim_doublet_ratio
            = s.sim_doublet_ratio)
      ∧ (∀ rr, ra = some rr →
          (simulate_doublets s g ra sub).1.sim_doublet_ratio = rr)) := by
  constructor
  · intro s1 s2 g1 g2 ra sub h1 h2 h3 h4
    cases ra <;> by_cases hsub : sub < 1 <;>
      simp [simulate_doublets, hsub, h1, h2, h3, h4]
  · intro s g ra sub
    cases ra <;> by_cases hsub : sub < 1 <;>
      simp [simulate_doublets, hsub]

/-- C8 witness: two runs on the same state from different prior global RNG
states agree on the synthetic matrix. -/
theorem simulate_doublets_deterministic_frame_c8_witness :
    wState8.E_obs = wState8.E_obs
  ∧ (simulate_doublets wState8 5 none 1).1.E_sim
      = (simulate_doublets wState8 77 none 1).1.E_sim :=
  ⟨rfl, (simulate_doublets_deterministic_frame_c8.1 wState8 wState8 5 77
    none 1 rfl rfl rfl rfl).1⟩

end Scrublet
